import Mathlib

/-!
Shallow embedding of the order-fulfillment logic of the c2c e-commerce
repository, centred on the `PUT /api/orders/[id]` route handler
(`src/app/api/orders/[id]/route.ts`), the order-creation handler
(`POST /api/orders`), and the shared `parseId` helper.

The database rows are modelled as Lean structures mirroring the drizzle
schema (`src/db/schema/*`); columns no claim mentions (timestamps, text
columns such as `title`/`description`, `categoryId`, `imageUrl`) are
omitted.  The `numeric(10,2)` money columns are modelled as `ℚ`;
JavaScript's `parseFloat`/`toFixed(2)` pipeline is modelled as exact
rational arithmetic plus rounding to two decimals (`round2`), which
agrees with the source on cent-valued amounts.
-/

/-- Roles of `TokenPayload.role` in `src/lib/auth` (`"buyer" | "seller" | "admin"`). -/
inductive Role where
  | admin
  | seller
  | buyer
deriving DecidableEq, Repr

/-- Decoded JWT payload as used by the handlers: `sub` (user id) and `role`. -/
structure TokenPayload where
  sub : Int
  role : Role
deriving DecidableEq, Repr

/-- The `order_status` enum of `src/db/schema/orders.ts`:
`["pending","paid","shipped","completed","cancelled","approved","rejected"]`. -/
inductive OrderStatus where
  | pending
  | paid
  | shipped
  | completed
  | cancelled
  | approved
  | rejected
deriving DecidableEq, Repr

/-- The `listing_status` enum of `src/db/schema/listings.ts`:
`["active","sold","removed"]`. -/
inductive ListingStatus where
  | active
  | sold
  | removed
deriving DecidableEq, Repr

/-- One row of the `listings` table (`id`, `seller_id`, `status`,
`price numeric(10,2)`); columns not used by any claim are omitted. -/
structure Listing where
  id : Int
  sellerId : Int
  status : ListingStatus
  price : ℚ
deriving DecidableEq, Repr

/-- One row of the `orders` table (`id`, `buyer_id`, `total_price numeric(10,2)`,
`status`); `created_at` is omitted. -/
structure Order where
  id : Int
  buyerId : Int
  totalPrice : ℚ
  status : OrderStatus
deriving DecidableEq, Repr

/-- One row of the `order_items` table (`id`, `order_id`, `listing_id`,
`price numeric(10,2)` — the price snapshot at purchase — and `quantity`). -/
structure OrderItem where
  id : Int
  orderId : Int
  listingId : Int
  price : ℚ
  quantity : Int
deriving DecidableEq, Repr

/-- The backing store: the three tables the transition logic reads and writes. -/
structure Db where
  orders : List Order
  orderItems : List OrderItem
  listings : List Listing
deriving DecidableEq, Repr

/-- A store with no rows at all. -/
def emptyDb : Db := ⟨[], [], []⟩

/-- The query `db.select().from(orders).where(eq(orders.id, id)).limit(1)`:
first `orders` row with the given id, if any. -/
def findOrder (db : Db) (id : Int) : Option Order :=
  db.orders.find? (fun o => o.id == id)

/-- The query selecting `{ listingId }` from `order_items` where `orderId = id`
(as run twice inside the seller branch of `PUT`). -/
def orderItemIds (db : Db) (id : Int) : List Int :=
  (db.orderItems.filter (fun i => i.orderId == id)).map (fun i => i.listingId)

/-- The query selecting `{ id }` from `listings` where `sellerId = sub`:
the ids of the listings owned by a seller (`getListingsOwnedBy` in the spec). -/
def listingsOwnedBy (db : Db) (sub : Int) : List Int :=
  (db.listings.filter (fun l => l.sellerId == sub)).map (fun l => l.id)

/-- The check `items.some((i) => sellerListingIds.has(i.listingId))` of the
seller branch: the order references at least one listing owned by the seller. -/
def hasSellerItem (db : Db) (id : Int) (sub : Int) : Bool :=
  (orderItemIds db id).any (fun lid => (listingsOwnedBy db sub).contains lid)

/-- The write `db.update(orders).set({ status }).where(eq(orders.id, id))`. -/
def setOrderStatus (db : Db) (id : Int) (st : OrderStatus) : Db :=
  { db with
    orders := db.orders.map (fun o => if o.id == id then { o with status := st } else o) }

/-- Per-row effect of the bulk update
`db.update(listings).set({ status: "sold" }).where(inArray(listings.id, ids))`. -/
def markSoldOne (ids : List Int) (l : Listing) : Listing :=
  if ids.contains l.id then { l with status := ListingStatus.sold } else l

/-- The `markSold` operation of the spec: bulk-transition the listings whose id
is in `ids` to `sold` (the `inArray` update in the approval branch of `PUT`). -/
def markSold (db : Db) (ids : List Int) : Db :=
  { db with listings := db.listings.map (markSoldOne ids) }

/-- Validation of the request-body `status` field against the `allowed` array
`["pending","paid","shipped","completed","cancelled","approved","rejected"]`;
`none` exactly when `!status || !allowed.includes(status)` fires (the empty
string is falsy and also not in the array). -/
def statusOfString : String → Option OrderStatus
  | "pending" => some OrderStatus.pending
  | "paid" => some OrderStatus.paid
  | "shipped" => some OrderStatus.shipped
  | "completed" => some OrderStatus.completed
  | "cancelled" => some OrderStatus.cancelled
  | "approved" => some OrderStatus.approved
  | "rejected" => some OrderStatus.rejected
  | _ => none

/-- Outcomes of the `PUT` handler, one constructor per distinct exit point
(the `jsonOk` success and each `jsonError` call site reachable after
authentication). -/
inductive PutOutcome where
  /-- `jsonOk(updated)` with the updated order row. -/
  | ok (updated : Order)
  /-- `authorize("admin","seller")` threw: `Forbidden: requires role admin or seller`, 403. -/
  | roleForbidden
  /-- `Invalid order id`, 400. -/
  | invalidId
  /-- `Order not found`, 404. -/
  | notFound
  /-- `status must be one of: ...`, 400. -/
  | badStatus
  /-- `Sellers can only approve or reject orders`, 403. -/
  | sellerStatusForbidden
  /-- `Only pending orders can be approved or rejected`, 400. -/
  | notPending
  /-- `Forbidden: this order does not contain your listings`, 403. -/
  | noStake
deriving DecidableEq, Repr

/-- HTTP status code attached to each outcome by `jsonOk`/`jsonError`. -/
def httpStatus : PutOutcome → Nat
  | PutOutcome.ok _ => 200
  | PutOutcome.roleForbidden => 403
  | PutOutcome.invalidId => 400
  | PutOutcome.notFound => 404
  | PutOutcome.badStatus => 400
  | PutOutcome.sellerStatusForbidden => 403
  | PutOutcome.notPending => 400
  | PutOutcome.noStake => 403

/-- The spec's failure taxonomy (section 7). -/
inductive FailureKind where
  | NotFound
  | Forbidden
  | InvalidTransition
  | ValidationError
deriving DecidableEq, Repr

/-- Classification of each handler exit under the spec's failure taxonomy,
following the spec's own mapping (`NotFound`→404, `Forbidden`→403,
`InvalidTransition`/`ValidationError`→400) and algorithm steps: the 403s
(role guard, non-approve/reject seller request, no stake) are `Forbidden`
(steps 3a/3c/4), the pending-state rejection is `InvalidTransition`
(step 3b), and the malformed-input 400s are `ValidationError`. -/
def failureKind : PutOutcome → Option FailureKind
  | PutOutcome.ok _ => none
  | PutOutcome.roleForbidden => some FailureKind.Forbidden
  | PutOutcome.invalidId => some FailureKind.ValidationError
  | PutOutcome.notFound => some FailureKind.NotFound
  | PutOutcome.badStatus => some FailureKind.ValidationError
  | PutOutcome.sellerStatusForbidden => some FailureKind.Forbidden
  | PutOutcome.notPending => some FailureKind.InvalidTransition
  | PutOutcome.noStake => some FailureKind.Forbidden

/-- The writes performed once all checks passed: update the order's status,
then — only when a seller approved — re-read the order's item listing ids and
the seller's listings and mark the intersection sold (guarded, as in the
source, by `listingIdsToMark.length > 0`).  Returns `jsonOk(updated)` where
`updated` is the order row after the write. -/
def applyWrite (db : Db) (payload : TokenPayload) (id : Int) (st : OrderStatus)
    (order : Order) : PutOutcome × Db :=
  let db1 := setOrderStatus db id st
  let db2 :=
    if st = OrderStatus.approved ∧ payload.role = Role.seller then
      let toMark := (orderItemIds db1 id).filter
        (fun lid => (listingsOwnedBy db1 payload.sub).contains lid)
      if toMark ≠ [] then markSold db1 toMark else db1
    else db1
  (PutOutcome.ok { order with status := st }, db2)

/-- The body of `PUT /api/orders/[id]` from the order lookup onward: load the
order (404 if absent), validate the body `status` against the enum (400),
run the seller-only checks (approve/reject only → 403; pending only → 400;
must own a referenced listing → 403), then apply the write. -/
def putBody (db : Db) (payload : TokenPayload) (id : Int) (requested : String) :
    PutOutcome × Db :=
  match findOrder db id with
  | none => (PutOutcome.notFound, db)
  | some order =>
    match statusOfString requested with
    | none => (PutOutcome.badStatus, db)
    | some st =>
      if payload.role = Role.seller then
        if ¬(st = OrderStatus.approved ∨ st = OrderStatus.rejected) then
          (PutOutcome.sellerStatusForbidden, db)
        else if order.status ≠ OrderStatus.pending then
          (PutOutcome.notPending, db)
        else if ¬ hasSellerItem db id payload.sub then
          (PutOutcome.noStake, db)
        else applyWrite db payload id st order
      else applyWrite db payload id st order

/-- The transition authority: the `PUT` handler with the order id already
parsed — `authorize("admin","seller")` first (so a buyer fails with 403
before the order is even loaded), then the body. -/
def transition (db : Db) (payload : TokenPayload) (orderId : Int)
    (requested : String) : PutOutcome × Db :=
  if payload.role = Role.admin ∨ payload.role = Role.seller then
    putBody db payload orderId requested
  else (PutOutcome.roleForbidden, db)

/-- Decimal-digit test (code points 48–57), as `parseInt(_, 10)` accepts. -/
def isDigitChar (c : Char) : Bool :=
  48 ≤ c.toNat && c.toNat ≤ 57

/-- White space skipped by JavaScript `parseInt` before the number: the
ECMAScript `StrWhiteSpaceChar` set, i.e. `WhiteSpace` (TAB U+0009, VT U+000B,
FF U+000C, SP U+0020, NBSP U+00A0, ZWNBSP U+FEFF, and the Unicode `Zs` space
separators U+1680, U+2000–U+200A, U+202F, U+205F, U+3000) together with
`LineTerminator` (LF U+000A, CR U+000D, LS U+2028, PS U+2029). -/
def isSpaceChar (c : Char) : Bool :=
  c.toNat = 9 || c.toNat = 10 || c.toNat = 11 || c.toNat = 12 || c.toNat = 13 ||
  c.toNat = 32 || c.toNat = 160 || c.toNat = 5760 ||
  decide (8192 ≤ c.toNat ∧ c.toNat ≤ 8202) ||
  c.toNat = 8232 || c.toNat = 8233 || c.toNat = 8239 || c.toNat = 8287 ||
  c.toNat = 12288 || c.toNat = 65279

/-- Value of a digit string, most significant digit first. -/
def natOfDigits (ds : List Char) : Nat :=
  ds.foldl (fun n c => 10 * n + (c.toNat - 48)) 0

/-- Maximal leading run of decimal digits, `none` when there is none
(the case where `parseInt` yields `NaN`). -/
def leadingDigits (cs : List Char) : Option Nat :=
  let ds := cs.takeWhile isDigitChar
  if ds.isEmpty then none else some (natOfDigits ds)

/-- JavaScript `parseInt(s, 10)`: skip leading white space, read an optional
sign, then the maximal run of decimal digits; `none` models `NaN`.
(Modelled with exact integers; the source's value is a float, which agrees
on all ids small enough to be exact.) -/
def jsParseInt (cs : List Char) : Option Int :=
  let t := cs.dropWhile isSpaceChar
  if t.head? = some '+' then (leadingDigits t.tail).map (fun n => (n : Int))
  else if t.head? = some '-' then (leadingDigits t.tail).map (fun n => -(n : Int))
  else (leadingDigits t).map (fun n => (n : Int))

/-- The route helper `parseId`: `parseInt(raw, 10)`, `null` on `NaN`. -/
def parseId (raw : String) : Option Int :=
  jsParseInt raw.data

/-- The full `PUT /api/orders/[id]` handler after authentication:
`authorize("admin","seller")`, then `parseId` with the falsy check
`if (!id)` (which also rejects a parsed 0), then the body. -/
def PUT (db : Db) (payload : TokenPayload) (rawId : String) (requested : String) :
    PutOutcome × Db :=
  if payload.role = Role.admin ∨ payload.role = Role.seller then
    match parseId rawId with
    | none => (PutOutcome.invalidId, db)
    | some n =>
      if n = 0 then (PutOutcome.invalidId, db)
      else putBody db payload n requested
  else (PutOutcome.roleForbidden, db)

/-- Outcomes of the `GET /api/orders/[id]` handler, one constructor per exit
point after authentication. -/
inductive GetOutcome where
  /-- `jsonOk`: the order spread together with its item rows, each paired with
  the left-joined listing row (the response's `listingTitle` string formatting
  is elided along with the omitted `title` column). -/
  | ok (order : Order) (items : List (OrderItem × Option Listing))
  /-- `authorize("buyer","admin")` threw: 403. -/
  | roleForbidden
  /-- `Invalid order id`, 400. -/
  | invalidId
  /-- `Order not found`, 404. -/
  | notFound
  /-- `Forbidden`, 403: not the owning buyer and not an admin. -/
  | notOwner
deriving DecidableEq, Repr

/-- HTTP status code of each `GET` outcome. -/
def getStatus : GetOutcome → Nat
  | GetOutcome.ok _ _ => 200
  | GetOutcome.roleForbidden => 403
  | GetOutcome.invalidId => 400
  | GetOutcome.notFound => 404
  | GetOutcome.notOwner => 403

/-- The query `select().from(orderItems).leftJoin(listings,
eq(listings.id, orderItems.listingId)).where(eq(orderItems.orderId, id))`:
one row per order item, paired with the matching listing if any (`listings.id`
is the primary key, so the first match is the join row). -/
def leftJoinListings (db : Db) (oid : Int) : List (OrderItem × Option Listing) :=
  (db.orderItems.filter (fun i => i.orderId == oid)).map
    (fun i => (i, db.listings.find? (fun l => l.id == i.listingId)))

/-- The `GET /api/orders/[id]` handler after authentication:
`authorize("buyer","admin")`, then `parseId` with the falsy check, then the
order lookup, then the owner check, then the item join. -/
def GET (db : Db) (payload : TokenPayload) (rawId : String) : GetOutcome :=
  if payload.role = Role.buyer ∨ payload.role = Role.admin then
    match parseId rawId with
    | none => GetOutcome.invalidId
    | some n =>
      if n = 0 then GetOutcome.invalidId
      else
        match findOrder db n with
        | none => GetOutcome.notFound
        | some order =>
          if payload.role ≠ Role.admin ∧ order.buyerId ≠ payload.sub then
            GetOutcome.notOwner
          else GetOutcome.ok order (leftJoinListings db n)
  else GetOutcome.roleForbidden

/-- Outcomes of the `DELETE /api/orders/[id]` handler. -/
inductive DeleteOutcome where
  /-- `jsonOk({ message: "Order deleted successfully" })`. -/
  | ok
  /-- `authorize("admin")` threw: 403. -/
  | roleForbidden
  /-- `Invalid order id`, 400. -/
  | invalidId
  /-- `Order not found`, 404. -/
  | notFound
deriving DecidableEq, Repr

/-- HTTP status code of each `DELETE` outcome. -/
def deleteStatus : DeleteOutcome → Nat
  | DeleteOutcome.ok => 200
  | DeleteOutcome.roleForbidden => 403
  | DeleteOutcome.invalidId => 400
  | DeleteOutcome.notFound => 404

/-- The write `db.delete(orders).where(eq(orders.id, id))`, with the schema's
`onDelete: "cascade"` on `order_items.orderId` removing the order's items. -/
def deleteOrder (db : Db) (oid : Int) : Db :=
  { db with
    orders := db.orders.filter (fun o => !(o.id == oid)),
    orderItems := db.orderItems.filter (fun i => !(i.orderId == oid)) }

/-- The `DELETE /api/orders/[id]` handler after authentication:
`authorize("admin")`, then `parseId` with the falsy check, then the order
lookup, then the delete. -/
def DELETE (db : Db) (payload : TokenPayload) (rawId : String) :
    DeleteOutcome × Db :=
  if payload.role = Role.admin then
    match parseId rawId with
    | none => (DeleteOutcome.invalidId, db)
    | some n =>
      if n = 0 then (DeleteOutcome.invalidId, db)
      else
        match findOrder db n with
        | none => (DeleteOutcome.notFound, db)
        | some _ => (DeleteOutcome.ok, deleteOrder db n)
  else (DeleteOutcome.roleForbidden, db)

/-- One request body item of `POST /api/orders`:
`{ listingId, quantity? }` (`quantity` may be absent, defaulting to 1). -/
structure ItemReq where
  listingId : Int
  quantity : Option Int
deriving DecidableEq, Repr

/-- One entry of the handler's `resolvedItems` accumulator:
`{ listingId, quantity, price }` with `price` the listing's current price. -/
structure ResolvedItem where
  listingId : Int
  quantity : Int
  price : ℚ
deriving DecidableEq, Repr

/-- Validation and resolution of one requested item: default the quantity to 1,
require it to be a positive integer, and require a listing with that id whose
status is `active` (`where(and(eq(listings.id, listingId), eq(listings.status,
"active"))).limit(1)`); the price snapshot is the listing's current price. -/
def resolveItem (db : Db) (r : ItemReq) : Option ResolvedItem :=
  let qty := r.quantity.getD 1
  if qty < 1 then none
  else
    match db.listings.find?
        (fun l => l.id == r.listingId && l.status == ListingStatus.active) with
    | none => none
    | some listing => some ⟨r.listingId, qty, listing.price⟩

/-- Resolution of the whole `items` array, failing on the first bad item
(the handler's `for` loop returns early on the first invalid entry). -/
def resolveItems (db : Db) : List ItemReq → Option (List ResolvedItem)
  | [] => some []
  | r :: rs =>
    match resolveItem db r with
    | none => none
    | some x =>
      match resolveItems db rs with
      | none => none
      | some xs => some (x :: xs)

/-- Rounding to two decimals, modelling `total.toFixed(2)`; exact (the
identity) on any amount that is a whole number of cents. -/
def round2 (q : ℚ) : ℚ :=
  ((Rat.floor (q * 100 + 1 / 2) : ℤ) : ℚ) / 100

/-- The sum `total` accumulated by the handler:
`total += parseFloat(listing.price) * qty` over the resolved items. -/
def itemsSum (resolved : List ResolvedItem) : ℚ :=
  (resolved.map (fun i => i.price * (i.quantity : ℚ))).sum

/-- The creation handler `POST /api/orders` for a buyer: reject an empty or
invalid `items` array, resolve each item against an active listing, then
insert one `orders` row (status defaults to `pending`, `totalPrice` is
`String(total.toFixed(2))`) and one `order_items` row per resolved item.
The serial ids the database would generate are passed in as `newOrderId`
and `firstItemId`, `firstItemId + 1`, …. -/
def POST (db : Db) (buyerId : Int) (reqs : List ItemReq)
    (newOrderId firstItemId : Int) : Option (Order × List OrderItem × Db) :=
  if reqs = [] then none
  else
    match resolveItems db reqs with
    | none => none
    | some resolved =>
      let order : Order := ⟨newOrderId, buyerId, round2 (itemsSum resolved), OrderStatus.pending⟩
      let items : List OrderItem := resolved.enum.map
        (fun p => ⟨firstItemId + p.1, newOrderId, p.2.listingId, p.2.price, p.2.quantity⟩)
      some (order, items,
        { db with orders := db.orders ++ [order], orderItems := db.orderItems ++ items })

/-- Sum of `price × quantity` over a list of order-item rows (the spec's
`priceAtPurchase × quantity`; the snapshot column is named `price` in
`order_items`). -/
def itemsTotal (its : List OrderItem) : ℚ :=
  (its.map (fun i => i.price * (i.quantity : ℚ))).sum

/-- The `order_items` rows belonging to one order. -/
def itemsOfOrder (db : Db) (oid : Int) : List OrderItem :=
  db.orderItems.filter (fun i => i.orderId == oid)

/-- One attempted status transition: acting payload, target order id,
requested status string. -/
structure Step where
  actor : TokenPayload
  orderId : Int
  requested : String
deriving DecidableEq, Repr

/-- Replay a sequence of transition attempts against the store, keeping the
state each attempt leaves behind (failures leave it unchanged). -/
def applyTransitions (db : Db) (steps : List Step) : Db :=
  steps.foldl (fun d s => (transition d s.actor s.orderId s.requested).2) db

/-- The columns of an `orders` row that the transition write never touches
(everything except `status`). -/
def stripOrder (o : Order) : Int × Int × ℚ :=
  (o.id, o.buyerId, o.totalPrice)

/-- Store with one pending order 7 of buyer 99, one item, listing 1 owned by
seller 10 at price 50 (the spec's first scenario). -/
def pendingDb : Db :=
  ⟨[⟨7, 99, 50, OrderStatus.pending⟩],
   [⟨1, 7, 1, 50, 1⟩],
   [⟨1, 10, ListingStatus.active, 50⟩]⟩

/-- Store with one pending multi-seller order 7 of buyer 99: item listing 1
owned by seller 10, item listing 2 owned by seller 20. -/
def twoSellerDb : Db :=
  ⟨[⟨7, 99, 80, OrderStatus.pending⟩],
   [⟨1, 7, 1, 50, 1⟩, ⟨2, 7, 2, 30, 1⟩],
   [⟨1, 10, ListingStatus.active, 50⟩, ⟨2, 20, ListingStatus.active, 30⟩]⟩

/-- Store with one already-completed order 8 of buyer 99, one item, listing 1
owned by seller 20. -/
def completedDb : Db :=
  ⟨[⟨8, 99, 50, OrderStatus.completed⟩],
   [⟨1, 8, 1, 50, 1⟩],
   [⟨1, 20, ListingStatus.active, 50⟩]⟩

-- sanity checks (concrete evaluations of the model)
example :
    (transition ⟨[⟨7, 99, 50, OrderStatus.pending⟩],
                 [⟨1, 7, 1, 50, 1⟩],
                 [⟨1, 10, ListingStatus.active, 50⟩]⟩
      ⟨10, Role.seller⟩ 7 "approved").1
    = PutOutcome.ok ⟨7, 99, 50, OrderStatus.approved⟩ := by decide

example :
    ((transition ⟨[⟨7, 99, 50, OrderStatus.pending⟩],
                  [⟨1, 7, 1, 50, 1⟩],
                  [⟨1, 10, ListingStatus.active, 50⟩]⟩
      ⟨10, Role.seller⟩ 7 "approved").2).listings
    = [⟨1, 10, ListingStatus.sold, 50⟩] := by decide

example :
    (transition emptyDb ⟨1, Role.admin⟩ 999 "paid") = (PutOutcome.notFound, emptyDb) := by
  decide

example : parseId "+3" = some 3 := by decide
example : parseId "-5" = some (-5) := by decide
example : parseId "7abc" = some 7 := by decide
example : parseId "abc" = none := by decide
example : parseId " 42" = some 42 := by decide
example : parseId "\u00A07" = some 7 := by decide
example : parseId "\uFEFF7" = some 7 := by decide
example : parseId "0" = some 0 := by decide
example : PUT emptyDb ⟨1, Role.admin⟩ "+3" "paid" = (PutOutcome.notFound, emptyDb) := by
  decide
example : PUT emptyDb ⟨1, Role.admin⟩ "abc" "paid" = (PutOutcome.invalidId, emptyDb) := by
  decide


/-! ### Helper lemmas about the store operations -/

theorem setOrderStatus_orderItems (db : Db) (i : Int) (st : OrderStatus) :
    (setOrderStatus db i st).orderItems = db.orderItems := rfl

theorem setOrderStatus_listings (db : Db) (i : Int) (st : OrderStatus) :
    (setOrderStatus db i st).listings = db.listings := rfl

theorem markSold_orders (db : Db) (ids : List Int) :
    (markSold db ids).orders = db.orders := rfl

theorem markSold_orderItems (db : Db) (ids : List Int) :
    (markSold db ids).orderItems = db.orderItems := rfl

theorem orderItemIds_setOrderStatus (db : Db) (i : Int) (st : OrderStatus) (j : Int) :
    orderItemIds (setOrderStatus db i st) j = orderItemIds db j := rfl

theorem listingsOwnedBy_setOrderStatus (db : Db) (i : Int) (st : OrderStatus) (s : Int) :
    listingsOwnedBy (setOrderStatus db i st) s = listingsOwnedBy db s := rfl

theorem findOrder_setOrderStatus (db : Db) (oid : Int) (st : OrderStatus) (o : Order)
    (h : findOrder db oid = some o) :
    findOrder (setOrderStatus db oid st) oid = some { o with status := st } := by
  unfold findOrder setOrderStatus
  rw [List.find?_map]
  have hp : ((fun x : Order => x.id == oid) ∘
      fun o : Order => if o.id == oid then { o with status := st } else o)
      = fun x : Order => x.id == oid := by
    funext x
    by_cases hx : x.id = oid
    · simp [Function.comp, hx]
    · simp [Function.comp, hx]
  rw [hp]
  unfold findOrder at h
  rw [h]
  have hid : (o.id == oid) = true :=
    @List.find?_some Order (fun x => x.id == oid) o db.orders h
  simp [hid]
  intro hc
  exact absurd (by simpa using hid) hc

theorem findOrder_markSold (db : Db) (ids : List Int) (oid : Int) :
    findOrder (markSold db ids) oid = findOrder db oid := rfl

/-! ### C2 -/

/-- C2: whenever the transition operation returns a failure (`NotFound`,
`Forbidden`, `InvalidTransition` or `ValidationError`), the store — the
`orders` rows and every `listings` row — is exactly as before the call:
no partial application of the order write and the listing write. -/
theorem failure_leaves_state_unchanged
    (db : Db) (p : TokenPayload) (oid : Int) (requested : String) (k : FailureKind)
    (h : failureKind (transition db p oid requested).1 = some k) :
    (transition db p oid requested).2 = db := by
  revert h
  unfold transition putBody
  split
  · split
    · intro _; rfl
    · split
      · intro _; rfl
      · split
        · split
          · intro _; rfl
          · split
            · intro _; rfl
            · split
              · intro _; rfl
              · intro h
                exact absurd h (by simp [applyWrite, failureKind])
        · intro h
          exact absurd h (by simp [applyWrite, failureKind])
  · intro _; rfl

/-- Witness for C2 at a concrete failing call (admin, absent order id 5). -/
theorem failure_leaves_state_unchanged_witness :
    failureKind (transition emptyDb ⟨1, Role.admin⟩ 5 "paid").1
      = some FailureKind.NotFound
    ∧ (transition emptyDb ⟨1, Role.admin⟩ 5 "paid").2 = emptyDb :=
  ⟨by decide,
   failure_leaves_state_unchanged emptyDb ⟨1, Role.admin⟩ 5 "paid"
     FailureKind.NotFound (by decide)⟩

/-! ### C3 -/

/-- C3: for every existing order in any current status, an admin request for
any value of the status enum succeeds, the requested status is persisted
exactly as requested, and no listing (and no order item) is changed. -/
theorem admin_override_any_status
    (db : Db) (p : TokenPayload) (oid : Int) (requested : String)
    (order : Order) (st : OrderStatus)
    (hrole : p.role = Role.admin)
    (hord : findOrder db oid = some order)
    (hst : statusOfString requested = some st) :
    transition db p oid requested
      = (PutOutcome.ok { order with status := st }, setOrderStatus db oid st)
    ∧ (setOrderStatus db oid st).listings = db.listings
    ∧ (setOrderStatus db oid st).orderItems = db.orderItems
    ∧ findOrder (setOrderStatus db oid st) oid = some { order with status := st } := by
  refine ⟨?_, rfl, rfl, findOrder_setOrderStatus db oid st order hord⟩
  unfold transition putBody applyWrite
  rw [hord, hst]
  simp [hrole]

/-- Witness for C3: admin moves the completed order 8 back to `pending`. -/
theorem admin_override_any_status_witness :
    TokenPayload.role ⟨1, Role.admin⟩ = Role.admin
    ∧ findOrder completedDb 8 = some ⟨8, 99, 50, OrderStatus.completed⟩
    ∧ statusOfString "pending" = some OrderStatus.pending
    ∧ (transition completedDb ⟨1, Role.admin⟩ 8 "pending"
        = (PutOutcome.ok ⟨8, 99, 50, OrderStatus.pending⟩,
           setOrderStatus completedDb 8 OrderStatus.pending)
      ∧ (setOrderStatus completedDb 8 OrderStatus.pending).listings = completedDb.listings
      ∧ (setOrderStatus completedDb 8 OrderStatus.pending).orderItems = completedDb.orderItems
      ∧ findOrder (setOrderStatus completedDb 8 OrderStatus.pending) 8
          = some ⟨8, 99, 50, OrderStatus.pending⟩) :=
  ⟨rfl, by decide, by decide,
   admin_override_any_status completedDb ⟨1, Role.admin⟩ 8 "pending"
     ⟨8, 99, 50, OrderStatus.completed⟩ OrderStatus.pending rfl (by decide) (by decide)⟩

/-! ### C7 -/

/-- C7 counterexample: the claim quantifies over every actor role, but a buyer
calling with an absent order id 999 is rejected by `authorize("admin","seller")`
with `Forbidden` (403) before the order is ever looked up, not with `NotFound`. -/
theorem buyer_missing_order_forbidden_cex :
    transition emptyDb ⟨99, Role.buyer⟩ 999 "paid" = (PutOutcome.roleForbidden, emptyDb)
    ∧ failureKind PutOutcome.roleForbidden = some FailureKind.Forbidden
    ∧ failureKind PutOutcome.roleForbidden ≠ some FailureKind.NotFound := by
  decide

/-- C7 (amended): for every transition request naming an absent order id by an
actor whose role is `admin` or `seller`, the operation fails with `NotFound`,
for every requested status value — including malformed ones, since the order
is loaded before the requested status is validated. -/
theorem missing_order_not_found
    (db : Db) (p : TokenPayload) (oid : Int) (requested : String)
    (hrole : p.role = Role.admin ∨ p.role = Role.seller)
    (hnone : findOrder db oid = none) :
    transition db p oid requested = (PutOutcome.notFound, db)
    ∧ failureKind PutOutcome.notFound = some FailureKind.NotFound := by
  refine ⟨?_, rfl⟩
  unfold transition putBody
  rw [if_pos hrole, hnone]

/-- Witness for C7 at a concrete input with a malformed status value. -/
theorem missing_order_not_found_witness :
    (TokenPayload.role ⟨1, Role.admin⟩ = Role.admin
      ∨ TokenPayload.role ⟨1, Role.admin⟩ = Role.seller)
    ∧ findOrder emptyDb 999 = none
    ∧ (transition emptyDb ⟨1, Role.admin⟩ 999 "bogus" = (PutOutcome.notFound, emptyDb)
      ∧ failureKind PutOutcome.notFound = some FailureKind.NotFound) :=
  ⟨Or.inl rfl, by decide,
   missing_order_not_found emptyDb ⟨1, Role.admin⟩ 999 "bogus" (Or.inl rfl) (by decide)⟩

/-! ### C8 -/

/-- C8: for every existing order and every requested status value, a transition
requested by a buyer fails with `Forbidden` (the `authorize("admin","seller")`
guard) and the store — in particular the order's status — is unchanged. -/
theorem buyer_transition_forbidden
    (db : Db) (p : TokenPayload) (oid : Int) (requested : String) (order : Order)
    (hrole : p.role = Role.buyer)
    (hord : findOrder db oid = some order) :
    transition db p oid requested = (PutOutcome.roleForbidden, db)
    ∧ failureKind PutOutcome.roleForbidden = some FailureKind.Forbidden := by
  refine ⟨?_, rfl⟩
  unfold transition
  rw [if_neg]
  rw [hrole]
  decide

/-- Witness for C8: buyer 99 tries to mark the pending order 7 paid. -/
theorem buyer_transition_forbidden_witness :
    TokenPayload.role ⟨99, Role.buyer⟩ = Role.buyer
    ∧ findOrder pendingDb 7 = some ⟨7, 99, 50, OrderStatus.pending⟩
    ∧ (transition pendingDb ⟨99, Role.buyer⟩ 7 "paid"
        = (PutOutcome.roleForbidden, pendingDb)
      ∧ failureKind PutOutcome.roleForbidden = some FailureKind.Forbidden) :=
  ⟨rfl, by decide,
   buyer_transition_forbidden pendingDb ⟨99, Role.buyer⟩ 7 "paid"
     ⟨7, 99, 50, OrderStatus.pending⟩ rfl (by decide)⟩

/-! ### C9 -/

/-- C9: `markSold` is idempotent — applying it twice to the same listing id set
equals applying it once, every listing in the set ends with status `sold`
(and no error: the operation is total), and marking an already-sold listing
sold again is a no-op on its state. -/
theorem markSold_idempotent (db : Db) (ids : List Int) :
    markSold (markSold db ids) ids = markSold db ids
    ∧ (∀ l ∈ (markSold (markSold db ids) ids).listings,
        ids.contains l.id = true → l.status = ListingStatus.sold)
    ∧ (∀ l : Listing, l.status = ListingStatus.sold → markSoldOne ids l = l) := by
  have hone : ∀ l : Listing, markSoldOne ids (markSoldOne ids l) = markSoldOne ids l := by
    intro l
    by_cases hm : l.id ∈ ids
    · simp [markSoldOne, hm]
    · simp [markSoldOne, hm]
  refine ⟨?_, ?_, ?_⟩
  · unfold markSold
    simp only [List.map_map]
    rw [show (markSoldOne ids ∘ markSoldOne ids) = markSoldOne ids from funext hone]
  · intro l hl hid
    rcases List.mem_map.mp hl with ⟨a, _, rfl⟩
    by_cases hm : a.id ∈ ids
    · simp [markSoldOne, hm]
    · simp [markSoldOne, hm] at hid
  · intro l hl
    by_cases hm : l.id ∈ ids
    · cases l
      unfold markSoldOne
      simp_all
    · simp [markSoldOne, hm]

/-- Witness for C9 on a concrete store and id set. -/
theorem markSold_idempotent_witness :
    markSold (markSold twoSellerDb [1]) [1] = markSold twoSellerDb [1]
    ∧ (∀ l ∈ (markSold (markSold twoSellerDb [1]) [1]).listings,
        List.contains [1] l.id = true → l.status = ListingStatus.sold)
    ∧ (∀ l : Listing, l.status = ListingStatus.sold → markSoldOne [1] l = l) :=
  markSold_idempotent twoSellerDb [1]

/-! ### C4 -/

/-- C4 counterexample: order 8 is `completed` (not pending) and seller 20 owns
a listing in it, yet requesting `paid` fails with the 403 `Forbidden`
("Sellers can only approve or reject orders"), not with `InvalidTransition` —
the approve/reject check runs before the pending check, so the failure kind is
not independent of the requested status. -/
theorem seller_nonpending_paid_forbidden_cex :
    transition completedDb ⟨20, Role.seller⟩ 8 "paid"
      = (PutOutcome.sellerStatusForbidden, completedDb)
    ∧ httpStatus PutOutcome.sellerStatusForbidden = 403
    ∧ failureKind PutOutcome.sellerStatusForbidden = some FailureKind.Forbidden
    ∧ failureKind PutOutcome.sellerStatusForbidden ≠ some FailureKind.InvalidTransition := by
  decide

/-- C4 (amended): for every existing order whose status is not `pending`, a
seller request for `approved` or `rejected` fails with `InvalidTransition`;
for other requested enum values the failure is `Forbidden` instead (and a
malformed value is `ValidationError`). -/
theorem seller_nonpending_invalid_transition
    (db : Db) (p : TokenPayload) (oid : Int) (requested : String)
    (order : Order) (st : OrderStatus)
    (hrole : p.role = Role.seller)
    (hord : findOrder db oid = some order)
    (hst : statusOfString requested = some st)
    (hsr : st = OrderStatus.approved ∨ st = OrderStatus.rejected)
    (hnp : order.status ≠ OrderStatus.pending) :
    transition db p oid requested = (PutOutcome.notPending, db)
    ∧ failureKind PutOutcome.notPending = some FailureKind.InvalidTransition := by
  refine ⟨?_, rfl⟩
  simp [transition, putBody, hord, hst, hrole, eq_true hsr, hnp]

/-- Witness for the amended C4: seller 20 tries to approve completed order 8. -/
theorem seller_nonpending_invalid_transition_witness :
    TokenPayload.role ⟨20, Role.seller⟩ = Role.seller
    ∧ findOrder completedDb 8 = some ⟨8, 99, 50, OrderStatus.completed⟩
    ∧ statusOfString "approved" = some OrderStatus.approved
    ∧ Order.status ⟨8, 99, 50, OrderStatus.completed⟩ ≠ OrderStatus.pending
    ∧ (transition completedDb ⟨20, Role.seller⟩ 8 "approved"
        = (PutOutcome.notPending, completedDb)
      ∧ failureKind PutOutcome.notPending = some FailureKind.InvalidTransition) :=
  ⟨rfl, by decide, by decide, by decide,
   seller_nonpending_invalid_transition completedDb ⟨20, Role.seller⟩ 8 "approved"
     ⟨8, 99, 50, OrderStatus.completed⟩ OrderStatus.approved rfl (by decide) (by decide)
     (Or.inl rfl) (by decide)⟩

/-! ### C5 -/

/-- C5 counterexample: seller 10 owns zero of the listings referenced by
order 8 (listing 1 belongs to seller 20), yet requesting `approved` while the
order is `completed` fails with `InvalidTransition` (400, "Only pending orders
can be approved or rejected"), not with `Forbidden` — the pending check runs
before the stake check. -/
theorem zero_stake_nonpending_not_forbidden_cex :
    listingsOwnedBy completedDb 10 = []
    ∧ transition completedDb ⟨10, Role.seller⟩ 8 "approved"
        = (PutOutcome.notPending, completedDb)
    ∧ failureKind PutOutcome.notPending = some FailureKind.InvalidTransition
    ∧ failureKind PutOutcome.notPending ≠ some FailureKind.Forbidden := by
  decide

/-- C5 (amended): for every existing `pending` order and every seller owning
zero of the listings referenced by the order's items, a transition attempt
with any valid status value fails with `Forbidden` (either the
approve/reject-only rejection or the no-stake rejection), leaving the store
unchanged; on non-pending orders an approve/reject attempt fails with
`InvalidTransition` instead. -/
theorem zero_stake_pending_forbidden
    (db : Db) (p : TokenPayload) (oid : Int) (requested : String)
    (order : Order) (st : OrderStatus)
    (hrole : p.role = Role.seller)
    (hord : findOrder db oid = some order)
    (hpend : order.status = OrderStatus.pending)
    (hst : statusOfString requested = some st)
    (hstake : ∀ l ∈ db.listings, l.sellerId = p.sub → l.id ∉ orderItemIds db oid) :
    failureKind (transition db p oid requested).1 = some FailureKind.Forbidden
    ∧ (transition db p oid requested).2 = db := by
  have hnostake : hasSellerItem db oid p.sub = false := by
    unfold hasSellerItem
    rw [List.any_eq_false]
    intro lid hlid
    have hmem : lid ∉ listingsOwnedBy db p.sub := by
      intro hmem
      unfold listingsOwnedBy at hmem
      rcases List.mem_map.mp hmem with ⟨l, hlf, rfl⟩
      rcases List.mem_filter.mp hlf with ⟨hl, hsell⟩
      exact hstake l hl (by simpa using hsell) hlid
    simpa using hmem
  by_cases hsr : st = OrderStatus.approved ∨ st = OrderStatus.rejected
  · constructor
    · simp [transition, putBody, hord, hst, hrole, eq_true hsr, hpend, hnostake, failureKind]
    · simp [transition, putBody, hord, hst, hrole, eq_true hsr, hpend, hnostake]
  · constructor
    · simp [transition, putBody, hord, hst, hrole, hsr, failureKind]
    · simp [transition, putBody, hord, hst, hrole, hsr]

/-- Witness for the amended C5: seller 10 (no stake in order 7 of
`completedDbNoStake`-style store) tries to approve a pending order owned
entirely by seller 20. -/
theorem zero_stake_pending_forbidden_witness :
    TokenPayload.role ⟨30, Role.seller⟩ = Role.seller
    ∧ findOrder pendingDb 7 = some ⟨7, 99, 50, OrderStatus.pending⟩
    ∧ Order.status ⟨7, 99, 50, OrderStatus.pending⟩ = OrderStatus.pending
    ∧ statusOfString "approved" = some OrderStatus.approved
    ∧ (failureKind (transition pendingDb ⟨30, Role.seller⟩ 7 "approved").1
        = some FailureKind.Forbidden
      ∧ (transition pendingDb ⟨30, Role.seller⟩ 7 "approved").2 = pendingDb) :=
  ⟨rfl, by decide, rfl, by decide,
   zero_stake_pending_forbidden pendingDb ⟨30, Role.seller⟩ 7 "approved"
     ⟨7, 99, 50, OrderStatus.pending⟩ OrderStatus.approved rfl (by decide) rfl (by decide)
     (by decide)⟩

/-! ### C1 -/

theorem applyWrite_fst (db : Db) (p : TokenPayload) (i : Int) (st : OrderStatus) (o : Order) :
    (applyWrite db p i st o).1 = PutOutcome.ok { o with status := st } := rfl

/-- C1: for a pending order containing items of sellers A (= `p.sub`) and B
(each owning at least one listing referenced by the order's items), when A
requests `approved`: the order becomes `approved`, every listing in the order
owned by A becomes `sold`, and every listing owned by B is left exactly as it
was.  Listing ids are assumed unique (primary key). -/
theorem seller_approval_scoped
    (db : Db) (p : TokenPayload) (oid : Int) (b : Int) (order : Order)
    (hrole : p.role = Role.seller)
    (hord : findOrder db oid = some order)
    (hpend : order.status = OrderStatus.pending)
    (hnodup : (db.listings.map Listing.id).Nodup)
    (hb : b ≠ p.sub)
    (hstakeA : ∃ l ∈ db.listings, l.sellerId = p.sub ∧ l.id ∈ orderItemIds db oid)
    (hstakeB : ∃ l ∈ db.listings, l.sellerId = b ∧ l.id ∈ orderItemIds db oid) :
    (transition db p oid "approved").1
      = PutOutcome.ok { order with status := OrderStatus.approved }
    ∧ findOrder (transition db p oid "approved").2 oid
        = some { order with status := OrderStatus.approved }
    ∧ (∀ l ∈ db.listings, l.sellerId = p.sub → l.id ∈ orderItemIds db oid →
        { l with status := ListingStatus.sold } ∈ (transition db p oid "approved").2.listings)
    ∧ (∀ l ∈ db.listings, l.sellerId = b →
        l ∈ (transition db p oid "approved").2.listings) := by
  clear hstakeB
  rcases hstakeA with ⟨l0, hl0, hl0sell, hl0item⟩
  have howned : ∀ l ∈ db.listings, l.sellerId = p.sub → l.id ∈ listingsOwnedBy db p.sub := by
    intro l hl hs
    unfold listingsOwnedBy
    exact List.mem_map.mpr ⟨l, List.mem_filter.mpr ⟨hl, by simp [hs]⟩, rfl⟩
  have hownedrev : ∀ lid ∈ listingsOwnedBy db p.sub,
      ∃ l ∈ db.listings, l.sellerId = p.sub ∧ l.id = lid := by
    intro lid hmem
    unfold listingsOwnedBy at hmem
    rcases List.mem_map.mp hmem with ⟨l, hlf, rfl⟩
    rcases List.mem_filter.mp hlf with ⟨hl, hsell⟩
    exact ⟨l, hl, by simpa using hsell, rfl⟩
  have hstake : hasSellerItem db oid p.sub = true := by
    unfold hasSellerItem
    rw [List.any_eq_true]
    refine ⟨l0.id, hl0item, ?_⟩
    simpa using howned l0 hl0 hl0sell
  have hred : transition db p oid "approved" = applyWrite db p oid OrderStatus.approved order := by
    simp [transition, putBody, hord, hrole, statusOfString, hpend, hstake]
  have htm0 : l0.id ∈ (orderItemIds db oid).filter
      (fun lid => (listingsOwnedBy db p.sub).contains lid) := by
    refine List.mem_filter.mpr ⟨hl0item, ?_⟩
    simpa using howned l0 hl0 hl0sell
  have hsnd : (applyWrite db p oid OrderStatus.approved order).2
      = markSold (setOrderStatus db oid OrderStatus.approved)
          ((orderItemIds db oid).filter
            (fun lid => (listingsOwnedBy db p.sub).contains lid)) := by
    have hne : (orderItemIds db oid).filter
        (fun lid => (listingsOwnedBy db p.sub).contains lid) ≠ [] :=
      List.ne_nil_of_mem htm0
    simp only [applyWrite, orderItemIds_setOrderStatus, listingsOwnedBy_setOrderStatus]
    rw [if_pos ⟨trivial, hrole⟩, if_pos hne]
  refine ⟨by rw [hred, applyWrite_fst], ?_, ?_, ?_⟩
  · rw [hred, hsnd, findOrder_markSold]
    exact findOrder_setOrderStatus db oid OrderStatus.approved order hord
  · intro l hl hsell hitem
    rw [hred, hsnd]
    unfold markSold
    have hmark : markSoldOne ((orderItemIds db oid).filter
        (fun lid => (listingsOwnedBy db p.sub).contains lid)) l
        = { l with status := ListingStatus.sold } := by
      unfold markSoldOne
      have hin : l.id ∈ (orderItemIds db oid).filter
          (fun lid => (listingsOwnedBy db p.sub).contains lid) :=
        List.mem_filter.mpr ⟨hitem, by simpa using howned l hl hsell⟩
      rw [if_pos (by simpa using hin)]
    exact List.mem_map.mpr ⟨l, hl, hmark⟩
  · intro l hl hsell
    rw [hred, hsnd]
    unfold markSold
    have hmark : markSoldOne ((orderItemIds db oid).filter
        (fun lid => (listingsOwnedBy db p.sub).contains lid)) l = l := by
      unfold markSoldOne
      have hnotin : l.id ∉ (orderItemIds db oid).filter
          (fun lid => (listingsOwnedBy db p.sub).contains lid) := by
        intro hin
        have hcont := (List.mem_filter.mp hin).2
        have hlid : l.id ∈ listingsOwnedBy db p.sub := by simpa using hcont
        rcases hownedrev l.id hlid with ⟨l2, hl2, hl2sell, hl2id⟩
        have heq : l2 = l := List.inj_on_of_nodup_map hnodup hl2 hl hl2id
        rw [heq] at hl2sell
        rw [hsell] at hl2sell
        exact hb hl2sell
      rw [if_neg (by simpa using hnotin)]
    exact List.mem_map.mpr ⟨l, hl, hmark⟩

/-- Witness for C1: seller 10 approves the pending two-seller order 7 of
`twoSellerDb`; listing 1 (seller 10) must end `sold`, listing 2 (seller 20)
must stay untouched. -/
theorem seller_approval_scoped_witness :
    TokenPayload.role ⟨10, Role.seller⟩ = Role.seller
    ∧ findOrder twoSellerDb 7 = some ⟨7, 99, 80, OrderStatus.pending⟩
    ∧ (20 : Int) ≠ (10 : Int)
    ∧ ((transition twoSellerDb ⟨10, Role.seller⟩ 7 "approved").1
        = PutOutcome.ok ⟨7, 99, 80, OrderStatus.approved⟩
      ∧ findOrder (transition twoSellerDb ⟨10, Role.seller⟩ 7 "approved").2 7
          = some ⟨7, 99, 80, OrderStatus.approved⟩
      ∧ (∀ l ∈ twoSellerDb.listings, l.sellerId = (10 : Int) →
          l.id ∈ orderItemIds twoSellerDb 7 →
          { l with status := ListingStatus.sold }
            ∈ (transition twoSellerDb ⟨10, Role.seller⟩ 7 "approved").2.listings)
      ∧ (∀ l ∈ twoSellerDb.listings, l.sellerId = (20 : Int) →
          l ∈ (transition twoSellerDb ⟨10, Role.seller⟩ 7 "approved").2.listings)) :=
  ⟨rfl, by decide, by decide,
   seller_approval_scoped twoSellerDb ⟨10, Role.seller⟩ 7 20
     ⟨7, 99, 80, OrderStatus.pending⟩ rfl (by decide) rfl (by decide) (by decide)
     ⟨⟨1, 10, ListingStatus.active, 50⟩, by decide⟩
     ⟨⟨2, 20, ListingStatus.active, 30⟩, by decide⟩⟩

/-! ### C10 -/

theorem digit_not_space (c : Char) (h : isDigitChar c = true) : isSpaceChar c = false := by
  unfold isDigitChar at h
  unfold isSpaceChar
  simp only [Bool.and_eq_true, decide_eq_true_eq] at h
  simp only [Bool.or_eq_false_iff, decide_eq_false_iff_not]
  omega

theorem takeWhile_all_append (p : Char → Bool) (ds suf : List Char)
    (hds : ∀ c ∈ ds, p c = true)
    (hsuf : ∀ c, suf.head? = some c → p c = false) :
    (ds ++ suf).takeWhile p = ds := by
  induction ds with
  | nil =>
    simp only [List.nil_append]
    cases suf with
    | nil => rfl
    | cons c cs =>
      have hc : p c = false := hsuf c rfl
      simp [List.takeWhile_cons, hc]
  | cons d ds ih =>
    have hd : p d = true := hds d (List.mem_cons_self d ds)
    have ih2 := ih (fun c hc => hds c (List.mem_cons_of_mem d hc))
    simp [List.takeWhile_cons, hd, ih2]

theorem jsParseInt_digit_suffix (ds suf : List Char)
    (hne : ds ≠ [])
    (hds : ∀ c ∈ ds, isDigitChar c = true)
    (hsuf : ∀ c, suf.head? = some c → isDigitChar c = false) :
    jsParseInt (ds ++ suf) = jsParseInt ds := by
  cases ds with
  | nil => exact absurd rfl hne
  | cons d ds =>
    have hd : isDigitChar d = true := hds d (List.mem_cons_self d ds)
    have hdspace : isSpaceChar d = false := digit_not_space d hd
    have hdplus : d ≠ '+' := by
      intro hc
      rw [hc] at hd
      exact absurd hd (by decide)
    have hdminus : d ≠ '-' := by
      intro hc
      rw [hc] at hd
      exact absurd hd (by decide)
    have htake := takeWhile_all_append isDigitChar (d :: ds) suf hds hsuf
    have htake2 := takeWhile_all_append isDigitChar (d :: ds) []
      hds (fun c hc => by simp at hc)
    rw [List.append_nil] at htake2
    unfold jsParseInt
    simp only [List.cons_append, List.dropWhile_cons, hdspace, Bool.false_eq_true,
      if_false, List.head?_cons, Option.some.injEq]
    rw [if_neg hdplus, if_neg hdminus, if_neg hdplus, if_neg hdminus]
    unfold leadingDigits
    rw [show (d :: ds) ++ suf = (d :: ds) ++ suf from rfl] at htake
    simp only [List.cons_append] at htake
    rw [htake, htake2]

/-- C10 counterexample: the id string `"+3"` does not start with a decimal
digit, yet `parseInt` yields 3 (not `NaN`), so the handler does not return
`Invalid order id` — with no order 3 in the store it reaches the lookup and
returns `Order not found` instead. -/
theorem nondigit_start_processed_cex :
    List.head? (String.data "+3") = some '+'
    ∧ isDigitChar '+' = false
    ∧ PUT pendingDb ⟨1, Role.admin⟩ "+3" "paid" = (PutOutcome.notFound, pendingDb)
    ∧ PutOutcome.notFound ≠ PutOutcome.invalidId := by
  decide

/-- C10 (amended): for every GET, PUT or DELETE request on `/api/orders/[id]`
by an actor passing that route's role guard (GET: buyer or admin; PUT: admin
or seller; DELETE: admin), (1) if `parseInt` on the path id yields `NaN` (no
leading digits after optional white space and an optional sign) or parses
to 0, the handler answers `Invalid order id` (400) with the store untouched
and no order lookup (the result is the same for every store); and (2) an id
string consisting of a digit run followed by a non-digit suffix is processed
exactly as the digit run alone. -/
theorem route_id_parsing :
    ((∀ (db : Db) (p : TokenPayload) (rawId requested : String),
      (p.role = Role.admin ∨ p.role = Role.seller) →
      (parseId rawId = none ∨ parseId rawId = some 0) →
      PUT db p rawId requested = (PutOutcome.invalidId, db))
    ∧ (∀ (db : Db) (p : TokenPayload) (rawId : String),
      (p.role = Role.buyer ∨ p.role = Role.admin) →
      (parseId rawId = none ∨ parseId rawId = some 0) →
      GET db p rawId = GetOutcome.invalidId)
    ∧ (∀ (db : Db) (p : TokenPayload) (rawId : String),
      p.role = Role.admin →
      (parseId rawId = none ∨ parseId rawId = some 0) →
      DELETE db p rawId = (DeleteOutcome.invalidId, db)))
    ∧ ((∀ (db : Db) (p : TokenPayload) (requested : String) (ds suf : List Char),
      ds ≠ [] → (∀ c ∈ ds, isDigitChar c = true) →
      (∀ c, suf.head? = some c → isDigitChar c = false) →
      PUT db p (String.mk (ds ++ suf)) requested = PUT db p (String.mk ds) requested)
    ∧ (∀ (db : Db) (p : TokenPayload) (ds suf : List Char),
      ds ≠ [] → (∀ c ∈ ds, isDigitChar c = true) →
      (∀ c, suf.head? = some c → isDigitChar c = false) →
      GET db p (String.mk (ds ++ suf)) = GET db p (String.mk ds))
    ∧ (∀ (db : Db) (p : TokenPayload) (ds suf : List Char),
      ds ≠ [] → (∀ c ∈ ds, isDigitChar c = true) →
      (∀ c, suf.head? = some c → isDigitChar c = false) →
      DELETE db p (String.mk (ds ++ suf)) = DELETE db p (String.mk ds)))
    ∧ httpStatus PutOutcome.invalidId = 400
    ∧ getStatus GetOutcome.invalidId = 400
    ∧ deleteStatus DeleteOutcome.invalidId = 400 := by
  refine ⟨⟨?_, ?_, ?_⟩, ⟨?_, ?_, ?_⟩, rfl, rfl, rfl⟩
  · intro db p rawId requested hrole hparse
    unfold PUT
    rw [if_pos hrole]
    rcases hparse with h | h
    · rw [h]
    · rw [h]
      simp
  · intro db p rawId hrole hparse
    unfold GET
    rw [if_pos hrole]
    rcases hparse with h | h
    · rw [h]
    · rw [h]
      simp
  · intro db p rawId hrole hparse
    unfold DELETE
    rw [if_pos hrole]
    rcases hparse with h | h
    · rw [h]
    · rw [h]
      simp
  · intro db p requested ds suf hne hds hsuf
    have hparse : parseId (String.mk (ds ++ suf)) = parseId (String.mk ds) :=
      jsParseInt_digit_suffix ds suf hne hds hsuf
    unfold PUT
    rw [hparse]
  · intro db p ds suf hne hds hsuf
    have hparse : parseId (String.mk (ds ++ suf)) = parseId (String.mk ds) :=
      jsParseInt_digit_suffix ds suf hne hds hsuf
    unfold GET
    rw [hparse]
  · intro db p ds suf hne hds hsuf
    have hparse : parseId (String.mk (ds ++ suf)) = parseId (String.mk ds) :=
      jsParseInt_digit_suffix ds suf hne hds hsuf
    unfold DELETE
    rw [hparse]

/-- Witness for the amended C10 at concrete inputs `"abc"` and `"7abc"` on
each of the three route handlers. -/
theorem route_id_parsing_witness :
    (PUT emptyDb ⟨1, Role.admin⟩ "abc" "paid" = (PutOutcome.invalidId, emptyDb)
    ∧ GET emptyDb ⟨99, Role.buyer⟩ "abc" = GetOutcome.invalidId
    ∧ DELETE emptyDb ⟨1, Role.admin⟩ "abc" = (DeleteOutcome.invalidId, emptyDb))
    ∧ (PUT emptyDb ⟨1, Role.admin⟩ (String.mk (['7'] ++ ['a', 'b', 'c'])) "paid"
        = PUT emptyDb ⟨1, Role.admin⟩ (String.mk ['7']) "paid"
    ∧ GET emptyDb ⟨99, Role.buyer⟩ (String.mk (['7'] ++ ['a', 'b', 'c']))
        = GET emptyDb ⟨99, Role.buyer⟩ (String.mk ['7'])
    ∧ DELETE emptyDb ⟨1, Role.admin⟩ (String.mk (['7'] ++ ['a', 'b', 'c']))
        = DELETE emptyDb ⟨1, Role.admin⟩ (String.mk ['7'])) :=
  ⟨⟨route_id_parsing.1.1 emptyDb ⟨1, Role.admin⟩ "abc" "paid" (Or.inl rfl)
      (Or.inl (by decide)),
    route_id_parsing.1.2.1 emptyDb ⟨99, Role.buyer⟩ "abc" (Or.inl rfl)
      (Or.inl (by decide)),
    route_id_parsing.1.2.2 emptyDb ⟨1, Role.admin⟩ "abc" rfl
      (Or.inl (by decide))⟩,
   ⟨route_id_parsing.2.1.1 emptyDb ⟨1, Role.admin⟩ "paid" ['7'] ['a', 'b', 'c']
      (by decide) (by decide) (by decide),
    route_id_parsing.2.1.2.1 emptyDb ⟨99, Role.buyer⟩ ['7'] ['a', 'b', 'c']
      (by decide) (by decide) (by decide),
    route_id_parsing.2.1.2.2 emptyDb ⟨1, Role.admin⟩ ['7'] ['a', 'b', 'c']
      (by decide) (by decide) (by decide)⟩⟩

/-! ### C6: rational arithmetic helpers -/

theorem den_one_exists (q : ℚ) (h : q.den = 1) : ∃ n : ℤ, q = (n : ℚ) :=
  ⟨q.num, ((Rat.den_eq_one_iff q).mp h).symm⟩

theorem ratFloor_eq_floor (x : ℚ) : x.floor = ⌊x⌋ := by
  rw [Rat.floor_def', Rat.floor_def]

/-- On a whole number of cents, rounding to two decimals is the identity:
`toFixed(2)` does not change a cent-valued total. -/
theorem round2_eq_self (q : ℚ) (h : (q * 100).den = 1) : round2 q = q := by
  rcases den_one_exists _ h with ⟨n, hn⟩
  unfold round2
  rw [hn, ratFloor_eq_floor]
  have hfl : ⌊(n : ℚ) + 1 / 2⌋ = n := by
    rw [Int.floor_int_add]
    norm_num
  rw [hfl, ← hn, mul_div_assoc]
  norm_num

theorem den_one_add (x y : ℚ) (hx : x.den = 1) (hy : y.den = 1) : (x + y).den = 1 := by
  rcases den_one_exists x hx with ⟨nx, rfl⟩
  rcases den_one_exists y hy with ⟨ny, rfl⟩
  rw [← Int.cast_add, Rat.den_intCast]

theorem den_one_mul_intCast (x : ℚ) (k : Int) (hx : x.den = 1) : (x * (k : ℚ)).den = 1 := by
  rcases den_one_exists x hx with ⟨nx, rfl⟩
  rw [← Int.cast_mul, Rat.den_intCast]

/-- The accumulated `total` of cent-valued line prices and integer quantities
is cent-valued. -/
theorem itemsSum_den (resolved : List ResolvedItem)
    (h : ∀ i ∈ resolved, (i.price * 100).den = 1) :
    (itemsSum resolved * 100).den = 1 := by
  induction resolved with
  | nil => simp [itemsSum]
  | cons i rest ih =>
    have hi : (i.price * 100).den = 1 := h i (List.mem_cons_self i rest)
    have hrest := ih (fun j hj => h j (List.mem_cons_of_mem i hj))
    have hstep : (i.price * (i.quantity : ℚ) * 100).den = 1 := by
      have : i.price * (i.quantity : ℚ) * 100 = i.price * 100 * (i.quantity : ℚ) := by ring
      rw [this]
      exact den_one_mul_intCast _ _ hi
    have hsum : itemsSum (i :: rest) = i.price * (i.quantity : ℚ) + itemsSum rest := by
      simp [itemsSum]
    rw [hsum, add_mul]
    exact den_one_add _ _ hstep hrest

/-- Every resolved item's price snapshot is the current price of a listing in
the store. -/
theorem resolveItems_price_mem (db : Db) (reqs : List ItemReq)
    (resolved : List ResolvedItem)
    (h : resolveItems db reqs = some resolved) :
    ∀ i ∈ resolved, ∃ l ∈ db.listings, i.price = l.price := by
  induction reqs generalizing resolved with
  | nil =>
    unfold resolveItems at h
    cases h
    intro i hi
    exact absurd hi (List.not_mem_nil i)
  | cons r rs ih =>
    unfold resolveItems at h
    cases hr : resolveItem db r with
    | none => rw [hr] at h; cases h
    | some x =>
      rw [hr] at h
      cases hrs : resolveItems db rs with
      | none => rw [hrs] at h; cases h
      | some xs =>
        rw [hrs] at h
        simp only [Option.some.injEq] at h
        subst h
        intro i hi
        rcases List.mem_cons.mp hi with hi | hi
        · subst hi
          unfold resolveItem at hr
          by_cases hq : (r.quantity.getD 1) < 1
          · rw [if_pos hq] at hr; cases hr
          · rw [if_neg hq] at hr
            cases hf : db.listings.find?
                (fun l => l.id == r.listingId && l.status == ListingStatus.active) with
            | none => rw [hf] at hr; cases hr
            | some listing =>
              rw [hf] at hr
              cases hr
              exact ⟨listing, List.mem_of_find?_eq_some hf, rfl⟩
        · exact ih xs hrs i hi

/-! ### C6: the transition operation never touches items, prices or totals -/

theorem applyWrite_orderItems (db : Db) (p : TokenPayload) (i : Int)
    (st : OrderStatus) (o : Order) :
    ((applyWrite db p i st o).2).orderItems = db.orderItems := by
  simp only [applyWrite]
  split_ifs <;> rfl

theorem transition_orderItems (db : Db) (p : TokenPayload) (i : Int) (r : String) :
    ((transition db p i r).2).orderItems = db.orderItems := by
  unfold transition putBody
  repeat' split
  all_goals first | rfl | apply applyWrite_orderItems

theorem strip_set (i : Int) (st : OrderStatus) (o : Order) :
    stripOrder (if o.id == i then { o with status := st } else o) = stripOrder o := by
  by_cases h : o.id = i
  · simp [stripOrder, h]
  · simp [stripOrder, h]

theorem setOrderStatus_orders_strip (db : Db) (i : Int) (st : OrderStatus) :
    ((setOrderStatus db i st).orders).map stripOrder = db.orders.map stripOrder := by
  unfold setOrderStatus
  simp only [List.map_map]
  rw [show (stripOrder ∘ fun o : Order => if o.id == i then { o with status := st } else o)
    = stripOrder from funext fun o => strip_set i st o]

theorem applyWrite_orders_strip (db : Db) (p : TokenPayload) (i : Int)
    (st : OrderStatus) (o : Order) :
    ((applyWrite db p i st o).2).orders.map stripOrder = db.orders.map stripOrder := by
  simp only [applyWrite]
  split_ifs <;> exact setOrderStatus_orders_strip db i st

theorem transition_orders_strip (db : Db) (p : TokenPayload) (i : Int) (r : String) :
    ((transition db p i r).2).orders.map stripOrder = db.orders.map stripOrder := by
  unfold transition putBody
  repeat' split
  all_goals first | rfl | apply applyWrite_orders_strip

theorem applyTransitions_orderItems (steps : List Step) :
    ∀ db : Db, (applyTransitions db steps).orderItems = db.orderItems := by
  induction steps with
  | nil => intro db; rfl
  | cons s rest ih =>
    intro db
    unfold applyTransitions
    rw [List.foldl_cons]
    have h2 := ih ((transition db s.actor s.orderId s.requested).2)
    unfold applyTransitions at h2
    rw [h2, transition_orderItems]

theorem applyTransitions_orders_strip (steps : List Step) :
    ∀ db : Db, (applyTransitions db steps).orders.map stripOrder
      = db.orders.map stripOrder := by
  induction steps with
  | nil => intro db; rfl
  | cons s rest ih =>
    intro db
    unfold applyTransitions
    rw [List.foldl_cons]
    have h2 := ih ((transition db s.actor s.orderId s.requested).2)
    unfold applyTransitions at h2
    rw [h2, transition_orders_strip]

/-- C6: `totalPrice` as computed once at order creation equals the sum over the
order's items of `price × quantity` (the spec's `priceAtPurchase × quantity`),
provided every listing price is a whole number of cents (the `numeric(10,2)`
column invariant, under which `toFixed(2)` is exact); and the equality still
holds after any sequence of status transitions, because transitions never
write any price, quantity or item row.  The freshness hypotheses state that
`newOrderId` is a fresh serial id. -/
theorem totalPrice_invariant
    (db : Db) (buyerId : Int) (reqs : List ItemReq) (newOrderId firstItemId : Int)
    (order : Order) (items : List OrderItem) (db1 : Db) (steps : List Step)
    (hprices : ∀ l ∈ db.listings, (l.price * 100).den = 1)
    (hpost : POST db buyerId reqs newOrderId firstItemId = some (order, items, db1))
    (hfreshO : ∀ o ∈ db.orders, o.id ≠ newOrderId)
    (hfreshI : ∀ i ∈ db.orderItems, i.orderId ≠ newOrderId) :
    order.totalPrice = itemsTotal items
    ∧ itemsOfOrder (applyTransitions db1 steps) newOrderId = items
    ∧ ∀ o' ∈ (applyTransitions db1 steps).orders, o'.id = newOrderId →
        o'.totalPrice = itemsTotal (itemsOfOrder (applyTransitions db1 steps) newOrderId) := by
  unfold POST at hpost
  by_cases hreq : reqs = []
  · rw [if_pos hreq] at hpost
    cases hpost
  rw [if_neg hreq] at hpost
  cases hres : resolveItems db reqs with
  | none => rw [hres] at hpost; cases hpost
  | some resolved =>
    rw [hres] at hpost
    simp only [Option.some.injEq, Prod.mk.injEq] at hpost
    obtain ⟨ho, hi, hd⟩ := hpost
    subst ho
    subst hi
    subst hd
    have hresden : ∀ i ∈ resolved, (i.price * 100).den = 1 := by
      intro i hi
      rcases resolveItems_price_mem db reqs resolved hres i hi with ⟨l, hl, hpe⟩
      rw [hpe]
      exact hprices l hl
    have hround : round2 (itemsSum resolved) = itemsSum resolved :=
      round2_eq_self _ (itemsSum_den resolved hresden)
    have htotal : itemsTotal (resolved.enum.map
        (fun p => (⟨firstItemId + (p.1 : Int), newOrderId, p.2.listingId, p.2.price,
          p.2.quantity⟩ : OrderItem))) = itemsSum resolved := by
      unfold itemsTotal itemsSum
      rw [List.map_map]
      rw [show ((fun i : OrderItem => i.price * (i.quantity : ℚ)) ∘
          (fun p : Nat × ResolvedItem => (⟨firstItemId + (p.1 : Int), newOrderId,
            p.2.listingId, p.2.price, p.2.quantity⟩ : OrderItem)))
          = (fun i : ResolvedItem => i.price * (i.quantity : ℚ)) ∘ Prod.snd from
        funext fun p => rfl]
      rw [← List.map_map, List.enum_map_snd]
    have hmain : (Order.mk newOrderId buyerId (round2 (itemsSum resolved))
        OrderStatus.pending).totalPrice = itemsTotal (resolved.enum.map
        (fun p => (⟨firstItemId + (p.1 : Int), newOrderId, p.2.listingId, p.2.price,
          p.2.quantity⟩ : OrderItem))) := by
      rw [htotal]
      exact hround
    have hitemsN := applyTransitions_orderItems steps
      ⟨db.orders ++ [Order.mk newOrderId buyerId (round2 (itemsSum resolved))
        OrderStatus.pending],
       db.orderItems ++ resolved.enum.map
        (fun p => (⟨firstItemId + (p.1 : Int), newOrderId, p.2.listingId, p.2.price,
          p.2.quantity⟩ : OrderItem)),
       db.listings⟩
    have hio : itemsOfOrder (applyTransitions
        ⟨db.orders ++ [Order.mk newOrderId buyerId (round2 (itemsSum resolved))
          OrderStatus.pending],
         db.orderItems ++ resolved.enum.map
          (fun p => (⟨firstItemId + (p.1 : Int), newOrderId, p.2.listingId, p.2.price,
            p.2.quantity⟩ : OrderItem)),
         db.listings⟩ steps) newOrderId
        = resolved.enum.map
          (fun p => (⟨firstItemId + (p.1 : Int), newOrderId, p.2.listingId, p.2.price,
            p.2.quantity⟩ : OrderItem)) := by
      unfold itemsOfOrder
      rw [hitemsN]
      show (db.orderItems ++ _).filter _ = _
      rw [List.filter_append]
      have h1 : db.orderItems.filter (fun i => i.orderId == newOrderId) = [] := by
        rw [List.filter_eq_nil]
        intro i hi
        simpa using hfreshI i hi
      have h2 : (resolved.enum.map
          (fun p => (⟨firstItemId + (p.1 : Int), newOrderId, p.2.listingId, p.2.price,
            p.2.quantity⟩ : OrderItem))).filter (fun i => i.orderId == newOrderId)
          = resolved.enum.map
          (fun p => (⟨firstItemId + (p.1 : Int), newOrderId, p.2.listingId, p.2.price,
            p.2.quantity⟩ : OrderItem)) := by
        rw [List.filter_eq_self]
        intro i hi
        rcases List.mem_map.mp hi with ⟨p, _, rfl⟩
        simp
      rw [h1, h2, List.nil_append]
    refine ⟨hmain, hio, ?_⟩
    intro o' ho' hid
    rw [hio, htotal]
    have hin : stripOrder o' ∈ ((applyTransitions
        ⟨db.orders ++ [Order.mk newOrderId buyerId (round2 (itemsSum resolved))
          OrderStatus.pending],
         db.orderItems ++ resolved.enum.map
          (fun p => (⟨firstItemId + (p.1 : Int), newOrderId, p.2.listingId, p.2.price,
            p.2.quantity⟩ : OrderItem)),
         db.listings⟩ steps).orders).map stripOrder :=
      List.mem_map_of_mem stripOrder ho'
    rw [applyTransitions_orders_strip] at hin
    have hin2 : stripOrder o' ∈ (db.orders ++ [Order.mk newOrderId buyerId
        (round2 (itemsSum resolved)) OrderStatus.pending]).map stripOrder := hin
    rcases List.mem_map.mp hin2 with ⟨o, ho, heq⟩
    have heq2 : o.id = o'.id ∧ o.buyerId = o'.buyerId ∧ o.totalPrice = o'.totalPrice := by
      simpa [stripOrder, Prod.mk.injEq] using heq
    rcases List.mem_append.mp ho with hmem | hmem
    · exact absurd (heq2.1.trans hid) (hfreshO o hmem)
    · have homk : o = Order.mk newOrderId buyerId (round2 (itemsSum resolved))
          OrderStatus.pending := by
        simpa using hmem
      rw [← heq2.2.2, homk]
      exact hround

theorem den50 : (((50 : ℚ)) * 100).den = 1 := by norm_num

theorem itemsSum_single : itemsSum [⟨1, 1, (50 : ℚ)⟩] = 50 := by
  simp [itemsSum]

theorem round2_single : round2 (itemsSum [⟨1, 1, (50 : ℚ)⟩]) = 50 := by
  rw [itemsSum_single]
  exact round2_eq_self 50 den50

theorem post_concrete :
    POST ⟨[], [], [⟨1, 10, ListingStatus.active, 50⟩]⟩ 99 [⟨1, some 1⟩] 7 1
    = some (⟨7, 99, 50, OrderStatus.pending⟩, [⟨1, 7, 1, 50, 1⟩],
        ⟨[⟨7, 99, 50, OrderStatus.pending⟩], [⟨1, 7, 1, 50, 1⟩],
         [⟨1, 10, ListingStatus.active, 50⟩]⟩) := by
  have hstep :
      POST ⟨[], [], [⟨1, 10, ListingStatus.active, 50⟩]⟩ 99 [⟨1, some 1⟩] 7 1
      = some (⟨7, 99, round2 (itemsSum [⟨1, 1, (50 : ℚ)⟩]), OrderStatus.pending⟩,
          [⟨1, 7, 1, 50, 1⟩],
          ⟨[⟨7, 99, round2 (itemsSum [⟨1, 1, (50 : ℚ)⟩]), OrderStatus.pending⟩],
           [⟨1, 7, 1, 50, 1⟩],
           [⟨1, 10, ListingStatus.active, 50⟩]⟩) := rfl
  rw [hstep, round2_single]

theorem hprices_concrete :
    ∀ l ∈ ([⟨1, 10, ListingStatus.active, 50⟩] : List Listing), (l.price * 100).den = 1 := by
  intro l hl
  rw [List.mem_singleton] at hl
  subst hl
  exact den50

/-- Witness for C6: one listing at price 50, one order of one item, followed by
a seller approval and an admin cancellation. -/
theorem totalPrice_invariant_witness :
    POST ⟨[], [], [⟨1, 10, ListingStatus.active, 50⟩]⟩ 99 [⟨1, some 1⟩] 7 1
      = some (⟨7, 99, 50, OrderStatus.pending⟩, [⟨1, 7, 1, 50, 1⟩],
          ⟨[⟨7, 99, 50, OrderStatus.pending⟩], [⟨1, 7, 1, 50, 1⟩],
           [⟨1, 10, ListingStatus.active, 50⟩]⟩)
    ∧ ((⟨7, 99, 50, OrderStatus.pending⟩ : Order).totalPrice
        = itemsTotal [⟨1, 7, 1, 50, 1⟩]
      ∧ itemsOfOrder (applyTransitions
          ⟨[⟨7, 99, 50, OrderStatus.pending⟩], [⟨1, 7, 1, 50, 1⟩],
           [⟨1, 10, ListingStatus.active, 50⟩]⟩
          [⟨⟨10, Role.seller⟩, 7, "approved"⟩, ⟨⟨1, Role.admin⟩, 7, "cancelled"⟩]) 7
          = [⟨1, 7, 1, 50, 1⟩]
      ∧ ∀ o' ∈ (applyTransitions
          ⟨[⟨7, 99, 50, OrderStatus.pending⟩], [⟨1, 7, 1, 50, 1⟩],
           [⟨1, 10, ListingStatus.active, 50⟩]⟩
          [⟨⟨10, Role.seller⟩, 7, "approved"⟩, ⟨⟨1, Role.admin⟩, 7, "cancelled"⟩]).orders,
          o'.id = 7 →
          o'.totalPrice = itemsTotal (itemsOfOrder (applyTransitions
            ⟨[⟨7, 99, 50, OrderStatus.pending⟩], [⟨1, 7, 1, 50, 1⟩],
             [⟨1, 10, ListingStatus.active, 50⟩]⟩
            [⟨⟨10, Role.seller⟩, 7, "approved"⟩, ⟨⟨1, Role.admin⟩, 7, "cancelled"⟩]) 7)) :=
  ⟨post_concrete,
   totalPrice_invariant ⟨[], [], [⟨1, 10, ListingStatus.active, 50⟩]⟩ 99 [⟨1, some 1⟩]
     7 1 ⟨7, 99, 50, OrderStatus.pending⟩ [⟨1, 7, 1, 50, 1⟩]
     ⟨[⟨7, 99, 50, OrderStatus.pending⟩], [⟨1, 7, 1, 50, 1⟩],
      [⟨1, 10, ListingStatus.active, 50⟩]⟩
     [⟨⟨10, Role.seller⟩, 7, "approved"⟩, ⟨⟨1, Role.admin⟩, 7, "cancelled"⟩]
     hprices_concrete post_concrete (by decide) (by decide)⟩
